import Mathlib

/-!
Verification of the real-time audio routing core of the Helixion repository
(`src/backend/src`).  Python state and transition functions are shallowly
embedded as Lean definitions: machine integers become `Int`/`Nat`, wallclock
times are `Int` milliseconds, mutable objects become explicit state records,
and side effects (telephony calls, database writes, log uploads, listener
pushes) become explicit effect lists.  Each definition's doc comment names the
Python function it embeds.
-/

namespace Helixion

/-- `PhoneCallEndReason` from `src/helixion_types.py`. -/
inductive PhoneCallEndReason
  | end_of_call_bot
  | voice_mail_bot
  | user_hangup
  | unknown
  | listener_hangup
  | transferred
deriving DecidableEq, Repr

/-- `HangUpReason` from `src/audio/audio_router.py`: a reason plus the `data`
dict, of which only the `"number"` key is ever read. -/
structure HangUpReason where
  reason : PhoneCallEndReason
  number : Option String
deriving DecidableEq, Repr

/-- `PhoneCallType` from `src/helixion_types.py`. -/
inductive PhoneCallType
  | inbound
  | outbound
deriving DecidableEq, Repr

/-- The mutable fields of `CallRouter` / `BrowserRouter`
(`src/audio/audio_router.py`) that the mark/truncation logic touches.
Durations and wallclock stamps are `Int` milliseconds. -/
structure RouterState where
  stream_sid : Option String
  last_ai_item_id : Option String
  mark_queue : List Int
  mark_queue_elapsed_time : Int
  inter_mark_start_time : Option Int
  hang_up_reason : Option HangUpReason
deriving DecidableEq, Repr

/-- A `conversation.item.truncate` message sent by
`AiCaller.truncate_message`. -/
structure TruncateEvent where
  item_id : String
  audio_end_ms : Int
deriving DecidableEq, Repr

/-- `CallRouter._truncate_audio_message` (identical in `BrowserRouter`),
`src/audio/audio_router.py` lines 249-265.  `now` is `int(time.time()*1000)`.
Returns the updated state and the truncate event sent to the model, if any. -/
def truncateAudioMessage (now : Int) (s : RouterState) :
    RouterState × Option TruncateEvent :=
  match s.last_ai_item_id with
  | none => (s, none)
  | some item_id =>
    match s.inter_mark_start_time with
    | none => (s, some ⟨item_id, s.mark_queue_elapsed_time⟩)
    | some t0 =>
      let inter_mark_elapsed_time := now - t0
      let bound :=
        match s.mark_queue with
        | [] => inter_mark_elapsed_time
        | d :: _ => d
      let newElapsed :=
        s.mark_queue_elapsed_time + min inter_mark_elapsed_time bound
      ({ s with mark_queue_elapsed_time := newElapsed },
        some ⟨item_id, newElapsed⟩)

/-- Result of `handle_speech_started`: the new router state, the truncate
event sent to the model (if any), and whether a `clear` event was sent to the
human endpoint. -/
structure SpeechStartedResult where
  state : RouterState
  truncate : Option TruncateEvent
  clear_sent : Bool
deriving DecidableEq, Repr

/-- `CallRouter.handle_speech_started` (identical in `BrowserRouter`),
`src/audio/audio_router.py` lines 267-277. -/
def handleSpeechStarted (now : Int) (s : RouterState) : SpeechStartedResult :=
  if s.mark_queue.length > 0 then
    let p := truncateAudioMessage now s
    ⟨{ p.1 with mark_queue := [], last_ai_item_id := none,
                mark_queue_elapsed_time := 0, inter_mark_start_time := none },
      p.2, true⟩
  else
    ⟨{ s with last_ai_item_id := none, mark_queue_elapsed_time := 0,
              inter_mark_start_time := none },
      none, false⟩

/-- Result of one `mark` event in the uplink loop: new state and whether the
loop `break`s (hang-up drain exit). -/
structure MarkResult where
  state : RouterState
  loop_break : Bool
deriving DecidableEq, Repr

/-- The `elif data["event"] == "mark"` branch of
`CallRouter.receive_from_human_call` (identical in
`BrowserRouter.receive_from_human_call`), `src/audio/audio_router.py`
lines 292-308. -/
def handleMarkEvent (now : Int) (s : RouterState) : MarkResult :=
  match s.mark_queue with
  | [] => ⟨s, false⟩
  | time_ms :: rest =>
    ⟨{ s with mark_queue := rest,
              mark_queue_elapsed_time := s.mark_queue_elapsed_time + time_ms,
              inter_mark_start_time :=
                if rest.length > 0 then some now else none },
      s.hang_up_reason.isSome && rest.length == 0⟩

/-- One entry of the agent's `tool_configuration["transfer_call_numbers"]`
list: a label and a phone number. -/
structure TransferEntry where
  label : String
  phone_number : String
deriving DecidableEq, Repr

/-- The `next((item["phone_number"] for item in ... if item["label"] ==
phone_number_label), None)` lookup in `CallRouter._transfer_call`,
`src/audio/audio_router.py` lines 139-148. -/
def findTransferNumber (entries : List TransferEntry) (lbl : String) :
    Option String :=
  (entries.find? (fun item => item.label == lbl)).map (·.phone_number)

/-- Observable side effects of router code paths. -/
inductive RouterEffect
  | logWarning (msg : String)
  | toolResult (item_id call_id output : String)
  | telephonyTransfer (sid number : String)
  | telephonyHangUp (sid : String)
deriving DecidableEq, Repr

/-- `CallRouter._transfer_call` (`src/audio/audio_router.py` lines 138-157;
`BrowserRouter._transfer_call` lines 407-428 is identical for these fields):
resolve the label; on failure only log a warning, otherwise store the
`transferred` hang-up reason.  The surrounding dispatch in `send_to_human`
posts no tool result for `transfer_call`. -/
def transferCallStep (entries : List TransferEntry) (lbl : String)
    (s : RouterState) : RouterState × List RouterEffect :=
  match findTransferNumber entries lbl with
  | none =>
    (s, [RouterEffect.logWarning
      ("Transfer call number not found: " ++ lbl
        ++ ", call will not be transferred")])
  | some number =>
    let r : HangUpReason := ⟨PhoneCallEndReason.transferred, some number⟩
    ({ s with hang_up_reason := some r }, [])

/-- The termination triggers that assign `hang_up_reason` in
`src/audio/audio_router.py`:
* `humanTransportClose` — the `ConnectionClosedOK` handler of
  `CallRouter.receive_from_human_call` (lines 309-315);
* `botHangUp b` — the `hang_up` tool branch of `send_to_human`
  (lines 163-179), `b` = the `answering_machine` argument;
* `transferTool n` — `_transfer_call` with a resolved number `n`
  (lines 153-157);
* `browserUserHangup` — the `hangup` event branch of
  `BrowserRouter.receive_from_human_call` (lines 616-623). -/
inductive TerminationTrigger
  | humanTransportClose
  | botHangUp (answeringMachine : Bool)
  | transferTool (number : String)
  | browserUserHangup
deriving DecidableEq, Repr

/-- The `HangUpReason` value each trigger assigns. -/
def triggerReason : TerminationTrigger → HangUpReason
  | TerminationTrigger.humanTransportClose =>
      ⟨PhoneCallEndReason.user_hangup, none⟩
  | TerminationTrigger.botHangUp true =>
      ⟨PhoneCallEndReason.voice_mail_bot, none⟩
  | TerminationTrigger.botHangUp false =>
      ⟨PhoneCallEndReason.end_of_call_bot, none⟩
  | TerminationTrigger.transferTool n =>
      ⟨PhoneCallEndReason.transferred, some n⟩
  | TerminationTrigger.browserUserHangup =>
      ⟨PhoneCallEndReason.user_hangup, none⟩

/-- Each listed trigger site executes a plain
`self.hang_up_reason = HangUpReason(...)` assignment, with no check of the
previously stored value. -/
def applyTrigger (t : TerminationTrigger) (s : RouterState) : RouterState :=
  { s with hang_up_reason := some (triggerReason t) }

/-- Folding a sequence of triggers over the state, in arrival order. -/
def applyTriggers (ts : List TerminationTrigger) (s : RouterState) :
    RouterState :=
  ts.foldl (fun acc t => applyTrigger t acc) s

/-- The `self.hang_up_reason = self.hang_up_reason or HangUpReason(
reason=unknown, data={})` defaulting at the top of `CallRouter._cleanup`
(`src/audio/audio_router.py` lines 80-83): the reason handed to
`AiCaller.close`. -/
def cleanupReason (s : RouterState) : PhoneCallEndReason :=
  (s.hang_up_reason.getD ⟨PhoneCallEndReason.unknown, none⟩).reason

/-- The state threaded through termination: the router's `hang_up_reason`,
`AiCaller._cleanup_started`, `AiCaller._phone_call_id`,
`AiCaller._audio_total_buffer_ms`, and the router's `call_type` /
`call_sid`. -/
structure CleanupState where
  hang_up_reason : Option HangUpReason
  cleanup_started : Bool
  phone_call_id : String
  audio_total_buffer_ms : Int
  call_type : PhoneCallType
  call_sid : String
deriving DecidableEq, Repr

/-- Observable side effects of the termination routine
(`AiCaller.close` + `CallRouter._cleanup`). -/
inductive CleanupEffect
  | closeModelConnection
  | pushCallEnd
  | flushLogTasks
  | uploadLog (path : String)
  | updatePhoneCall (path : String) (reason : PhoneCallEndReason)
  | removeLogFile
  | telephonyTransfer (sid number : String)
  | telephonyHangUp (sid : String)
  | insertPhoneCallEvent (phone_call_id : String) (duration_s : Int)
deriving DecidableEq, Repr

/-- The S3 path `f"s3://clinicontact/logs/{phone_call_id}.zip"` built in
`AiCaller.close`. -/
def s3Filepath (phone_call_id : String) : String :=
  "s3://clinicontact/logs/" ++ phone_call_id ++ ".zip"

/-- `AiCaller.close` (`src/ai/caller.py` lines 470-521).  `uploadOk` /
`deleteOk` are oracles for whether the zip-and-upload block (step 5) and
`os.remove` (step 7) succeed; neither is wrapped in a `try`, so a failure
propagates: the result is `none` in place of the returned
`(phone_call_id, total_ms)` pair and the remaining steps are skipped.
The guard at the top returns the cached pair with no effects when
`_cleanup_started` is already true. -/
def aiCallerCloseRun (uploadOk deleteOk : Bool)
    (reason : PhoneCallEndReason) (st : CleanupState) :
    CleanupState × List CleanupEffect × Option (String × Int) :=
  if st.cleanup_started then
    (st, [], some (st.phone_call_id, st.audio_total_buffer_ms))
  else
    let st := { st with cleanup_started := true }
    let effs := [CleanupEffect.closeModelConnection,
                 CleanupEffect.pushCallEnd,
                 CleanupEffect.flushLogTasks]
    if uploadOk = false then
      (st, effs, none)
    else
      let path := s3Filepath st.phone_call_id
      let effs := effs ++ [CleanupEffect.uploadLog path,
                           CleanupEffect.updatePhoneCall path reason]
      if deleteOk = false then
        (st, effs, none)
      else
        (st, effs ++ [CleanupEffect.removeLogFile],
          some (st.phone_call_id, st.audio_total_buffer_ms))

/-- `CallRouter._cleanup` (`src/audio/audio_router.py` lines 79-104):
default the hang-up reason, call `AiCaller.close`, then transfer or hang up
the telephony call, and for inbound calls insert a phone-call-event row with
`CallDuration = duration // 1000`.  Unlike `BrowserRouter._cleanup`, there is
no `_cleanup_started` guard at this level.  A `none` outcome from `close`
models a propagating exception, which skips the rest of `_cleanup`. -/
def callRouterCleanup (uploadOk deleteOk : Bool) (st : CleanupState) :
    CleanupState × List CleanupEffect × Option (String × Int) :=
  let reason := st.hang_up_reason.getD ⟨PhoneCallEndReason.unknown, none⟩
  let st := { st with hang_up_reason := some reason }
  match aiCallerCloseRun uploadOk deleteOk reason.reason st with
  | (st1, effs, none) => (st1, effs, none)
  | (st1, effs, some ret) =>
    let effs := effs ++
      (if reason.reason = PhoneCallEndReason.transferred then
        [CleanupEffect.telephonyTransfer st1.call_sid (reason.number.getD "")]
      else
        [CleanupEffect.telephonyHangUp st1.call_sid])
    let effs := effs ++
      (if st1.call_type = PhoneCallType.inbound then
        [CleanupEffect.insertPhoneCallEvent ret.1 (Int.fdiv ret.2 1000)]
      else [])
    (st1, effs, some ret)

/-- `Speaker` from `src/helixion_types.py`. -/
inductive Speaker
  | user
  | assistant
deriving DecidableEq, Repr

/-- `SpeakerSegment` from `src/helixion_types.py`.  The Python `timestamp`
is a float (seconds); it is modelled as a rational. -/
structure SpeakerSegment where
  timestamp : ℚ
  speaker : Speaker
  transcript : String
  item_id : String
deriving DecidableEq, Repr

/-- A message pushed onto the per-call `AiMessageQueue`
(`src/ai/caller.py`): an `audio` payload, a `speaker` snapshot, or the
terminal `call_end` sentinel. -/
inductive AiMessage
  | audio (data : String)
  | speaker (segments : List SpeakerSegment)
  | callEnd
deriving DecidableEq, Repr

/-- `AiMessageQueue.add_data` (`src/ai/caller.py` lines 155-167):
`asyncio.Queue.put_nowait` on a queue constructed with no `maxsize`, i.e.
an unconditional FIFO append — nothing is ever dropped. -/
def addData (q : List AiMessage) (m : AiMessage) : List AiMessage :=
  q ++ [m]

/-- Pushing a whole list of messages, in order, onto an empty queue. -/
def enqueueAll (msgs : List AiMessage) : List AiMessage :=
  msgs.foldl addData []

/-- `AiMessageQueue.end_call` (`src/ai/caller.py` lines 169-173). -/
def endCall (q : List AiMessage) : List AiMessage :=
  addData q AiMessage.callEnd

/-- The consumer loop of `listen_in_stream` (`src/routes/phone.py`
lines 466-483): repeatedly `get` a message, forward it, and `break` after
forwarding a `call_end`.  Returns the queue messages the listener observes,
in order. -/
def drainQueue : List AiMessage → List AiMessage
  | [] => []
  | m :: rest =>
    match m with
    | AiMessage.callEnd => [AiMessage.callEnd]
    | _ => m :: drainQueue rest

/-- The in-place transcript update of `AiCaller._update_speaker_segments`
(`src/ai/caller.py` lines 276-292): set the transcript of the first segment
whose `item_id` equals the new segment's (there is no speaker check), and
append the new segment when no match exists. -/
def updateFirstMatch : List SpeakerSegment → SpeakerSegment →
    List SpeakerSegment
  | [], seg => [seg]
  | s :: rest, seg =>
    if s.item_id = seg.item_id then
      { s with transcript := seg.transcript } :: rest
    else
      s :: updateFirstMatch rest seg

/-- The `conversation.item.input_audio_transcription.completed` branch of
`process_audio_data` (`src/audio/data_processing.py` lines 65-76): scan the
segments for `item_id` matches; a non-User match is reported as an anomaly
and its transcript left unchanged (the scan continues); the first User match
has its transcript set and the scan stops.  Returns the updated list and
whether an anomaly was logged. -/
def processTranscriptionCompleted (item_id transcript : String) :
    List SpeakerSegment → List SpeakerSegment × Bool
  | [] => ([], false)
  | s :: rest =>
    if s.item_id = item_id then
      if s.speaker ≠ Speaker.user then
        let p := processTranscriptionCompleted item_id transcript rest
        (s :: p.1, true)
      else
        ({ s with transcript := transcript } :: rest, false)
    else
      let p := processTranscriptionCompleted item_id transcript rest
      (s :: p.1, p.2)

/-- The mutable fields of `AiCaller` (`src/ai/caller.py`) that the audio
bookkeeping and transcript logic touch.  The pre-speech
`_audio_input_buffer` stores `(audio_b64, audio_ms, cumulative_input_ms)`
triples.  `listener` is the sequence of messages pushed onto the attached
`AiMessageQueue`. -/
structure AiState where
  user_speaking : Bool
  audio_input_buffer_ms : Int
  audio_total_buffer_ms : Int
  audio_input_buffer : List (String × Int × Int)
  speaker_segments : List SpeakerSegment
  listener : List AiMessage
  start_speaking_buffer_ms : Option Int
  start_speaking_buffer_start_time : Option Int
deriving DecidableEq, Repr

/-- `AiCaller._update_speaker_segments` at the state level: update or append
the segment, then push the current segment list to the listener queue as a
`speaker` message. -/
def updateSpeakerSegments (seg : SpeakerSegment) (s : AiState) : AiState :=
  let segments := updateFirstMatch s.speaker_segments seg
  { s with speaker_segments := segments,
           listener := addData s.listener (AiMessage.speaker segments) }

/-- `AiCaller.receive_human_audio` (`src/ai/caller.py` lines 340-374).
`audioMs` abstracts `AiCaller._audio_ms` (base64 decode + byte count to
milliseconds); `now` is `time.time() * 1000`.  The
`input_audio_buffer.append` send to the model is not part of the modelled
state.  If the kickoff buffer is armed and expired, `_start_speaking_message`
fires and disarms it. -/
def receiveHumanAudio (audioMs : String → Int) (now : Int) (audio : String)
    (s : AiState) : AiState :=
  let s :=
    match s.start_speaking_buffer_ms, s.start_speaking_buffer_start_time with
    | some buf, some t0 =>
      if now - t0 > buf then { s with start_speaking_buffer_ms := none }
      else s
    | _, _ => s
  let ms := audioMs audio
  let s := { s with audio_input_buffer_ms := s.audio_input_buffer_ms + ms }
  if s.user_speaking then
    { s with audio_total_buffer_ms := s.audio_total_buffer_ms + ms,
             listener := addData s.listener (AiMessage.audio audio) }
  else
    { s with audio_input_buffer :=
        s.audio_input_buffer ++ [(audio, ms, s.audio_input_buffer_ms)] }

/-- The `for audio, individual_ms, ms in self._audio_input_buffer` loop of
the `input_audio_buffer.speech_started` branch of
`AiCaller._message_handler` (`src/ai/caller.py` lines 394-403): entries with
`ms >= audio_start_ms` add their `individual_ms` to the running total and
are pushed to the listener queue; the rest are skipped. -/
def flushInputBuffer (audio_start_ms : Int) :
    List (String × Int × Int) → Int → List AiMessage → Int × List AiMessage
  | [], total, out => (total, out)
  | (audio, individual_ms, ms) :: rest, total, out =>
    if ms ≥ audio_start_ms then
      flushInputBuffer audio_start_ms rest (total + individual_ms)
        (addData out (AiMessage.audio audio))
    else
      flushInputBuffer audio_start_ms rest total out

/-- The `if len(self._speaker_segments) > 0 and
self._speaker_segments[-1].item_id == ""` adoption step of the
`response.audio.delta` branch (`src/ai/caller.py` lines 428-432): give the
trailing segment the delta's `item_id` when its own is empty. -/
def adoptItemId (item_id : String) : List SpeakerSegment →
    List SpeakerSegment
  | [] => []
  | [s] => if s.item_id = "" then [{ s with item_id := item_id }] else [s]
  | s :: rest => s :: adoptItemId item_id rest

/-- The events `AiCaller._message_handler` dispatches on, with the payload
fields the modelled state uses. -/
inductive AiEvent
  | speechStarted (item_id : String) (audio_start_ms : Int)
  | speechStopped
  | audioDelta (item_id delta : String)
  | transcriptionCompleted (item_id transcript : String)
  | transcriptDone (item_id transcript : String)
  | sessionUpdated
  | responseDone (failed : Bool)
  | errorEvent
deriving DecidableEq, Repr

/-- `AiCaller._message_handler` (`src/ai/caller.py` lines 376-468) as a state
transition.  `audioMs` abstracts `AiCaller._audio_ms`; `now` is
`time.time() * 1000`.  The `response.done` / `error` branches only log. -/
def messageHandler (audioMs : String → Int) (now : Int) (e : AiEvent)
    (s : AiState) : AiState :=
  match e with
  | AiEvent.speechStarted item_id audio_start_ms =>
    let s := { s with start_speaking_buffer_ms := none, user_speaking := true }
    let s := updateSpeakerSegments
      ⟨(s.audio_total_buffer_ms : ℚ) / 1000, Speaker.user, "", item_id⟩ s
    let p := flushInputBuffer audio_start_ms s.audio_input_buffer
      s.audio_total_buffer_ms s.listener
    { s with audio_total_buffer_ms := p.1, listener := p.2,
             audio_input_buffer := [] }
  | AiEvent.speechStopped =>
    let s := { s with user_speaking := false }
    updateSpeakerSegments
      ⟨(s.audio_total_buffer_ms : ℚ) / 1000, Speaker.assistant, "", ""⟩ s
  | AiEvent.audioDelta item_id delta =>
    let s := { s with start_speaking_buffer_ms := none }
    let audio_ms := audioMs delta
    let s := { s with audio_total_buffer_ms :=
                        s.audio_total_buffer_ms + audio_ms,
                      listener := addData s.listener (AiMessage.audio delta) }
    { s with speaker_segments := adoptItemId item_id s.speaker_segments }
  | AiEvent.transcriptionCompleted item_id transcript =>
    updateSpeakerSegments ⟨0, Speaker.user, transcript, item_id⟩ s
  | AiEvent.transcriptDone item_id transcript =>
    updateSpeakerSegments ⟨0, Speaker.assistant, transcript, item_id⟩ s
  | AiEvent.sessionUpdated =>
    if s.start_speaking_buffer_ms.isSome then
      { s with start_speaking_buffer_start_time := some now }
    else s
  | AiEvent.responseDone _ => s
  | AiEvent.errorEvent => s

/-- A knowledge-base document as cached by `_get_documents`
(`src/ai/document_query.py`): `(name, text, token_count)`. -/
abbrev Doc3 := String × String × Int

/-- `MAX_TOKEN_AMOUNT` from `src/ai/document_query.py` line 141. -/
def MAX_TOKEN_AMOUNT : Int := 30000

/-- The `sorted(documents, key=lambda x: x[2])` step of `query_documents`
(`src/ai/document_query.py` line 151): a stable ascending sort by token
count. -/
def sortDocumentsByTokenCount (documents : List Doc3) : List Doc3 :=
  documents.mergeSort (fun a b => decide (a.2.2 ≤ b.2.2))

/-- The loop body of `_group_documents_by_token_count`
(`src/ai/document_query.py` lines 119-138), carrying `current_group` and
`current_token_count`. -/
def groupDocsAux (max_tokens : Int) :
    List Doc3 → List (String × String) → Int → List (List (String × String))
  | [], current_group, _ =>
    if current_group.isEmpty then [] else [current_group]
  | (doc_name, doc_text, token_count) :: rest, current_group,
      current_token_count =>
    if current_token_count + token_count > max_tokens ∧ current_group ≠ []
    then
      current_group ::
        groupDocsAux max_tokens rest [(doc_name, doc_text)] token_count
    else
      groupDocsAux max_tokens rest (current_group ++ [(doc_name, doc_text)])
        (current_token_count + token_count)

/-- `_group_documents_by_token_count` (`src/ai/document_query.py`
lines 119-138). -/
def groupDocumentsByTokenCount (documents : List Doc3) (max_tokens : Int) :
    List (List (String × String)) :=
  groupDocsAux max_tokens documents [] 0

/-- The same grouping but keeping the token counts, so that each group's
token total can be stated; `groupDocumentsByTokenCount` is its projection
(proved below). -/
def groupDocsAux3 (max_tokens : Int) :
    List Doc3 → List Doc3 → Int → List (List Doc3)
  | [], cur, _ => if cur.isEmpty then [] else [cur]
  | d :: rest, cur, curTok =>
    if curTok + d.2.2 > max_tokens ∧ cur ≠ [] then
      cur :: groupDocsAux3 max_tokens rest [d] d.2.2
    else
      groupDocsAux3 max_tokens rest (cur ++ [d]) (curTok + d.2.2)

/-- Triple-level grouping of a document list. -/
def groupDocs3 (documents : List Doc3) (max_tokens : Int) :
    List (List Doc3) :=
  groupDocsAux3 max_tokens documents [] 0

/-- Total token count of a group of documents. -/
def tokenSum (g : List Doc3) : Int :=
  (g.map (fun d => d.2.2)).sum

/-- The grouping performed by `query_documents` (`src/ai/document_query.py`
lines 144-164): sort ascending by token count, then pack greedily with
budget `MAX_TOKEN_AMOUNT`. -/
def queryDocumentsGroups (documents : List Doc3) :
    List (List (String × String)) :=
  groupDocumentsByTokenCount (sortDocumentsByTokenCount documents)
    MAX_TOKEN_AMOUNT

/-- `query_documents` (`src/ai/document_query.py` lines 144-164).  The three
collaborator calls are abstracted as oracles: `getDocuments` for
`_get_documents` (cache/DB fetch keyed by the knowledge-base ids),
`modelQueryDocuments` for `_model_query_documents` (one chat completion per
group; `asyncio.gather` preserves group order, so the answers are the
per-group lookups in group order), and `consolidateAnswers` for
`_consolidate_answers` (the second completion producing the single returned
string).  An empty knowledge-base list short-circuits to
`"No documents found"`. -/
def queryDocuments (getDocuments : List String → List Doc3)
    (modelQueryDocuments : String → List (String × String) → String)
    (consolidateAnswers : String → List String → String)
    (query : String) (knowledge_bases : List String) : String :=
  if knowledge_bases.length = 0 then "No documents found"
  else
    let documents := sortDocumentsByTokenCount (getDocuments knowledge_bases)
    let document_groups :=
      groupDocumentsByTokenCount documents MAX_TOKEN_AMOUNT
    let answers := document_groups.map (modelQueryDocuments query)
    consolidateAnswers query answers

/-- Whether an event is `input_audio_buffer.speech_started`. -/
def isSpeechStarted : AiEvent → Bool
  | AiEvent.speechStarted _ _ => true
  | _ => false

/-- Projection from a cached document triple to the `(name, text)` pair kept
in the groups. -/
def docPair (d : Doc3) : String × String :=
  (d.1, d.2.1)

/-- Example router state for the barge-in scenario of S2: elapsed 200 ms
acknowledged, chunks of 200 ms and 200 ms still pending, last mark
acknowledged at wallclock 1000 ms. -/
def s2State : RouterState :=
  { stream_sid := some "MZ1", last_ai_item_id := some "item-1",
    mark_queue := [200, 200], mark_queue_elapsed_time := 200,
    inter_mark_start_time := some 1000, hang_up_reason := none }

/-- Example router state with an empty mark queue and a pending hang-up
reason. -/
def emptyQueueState : RouterState :=
  { stream_sid := some "MZ1", last_ai_item_id := none,
    mark_queue := [], mark_queue_elapsed_time := 37,
    inter_mark_start_time := none,
    hang_up_reason := some ⟨PhoneCallEndReason.end_of_call_bot, none⟩ }

/-- Example router state with a single pending chunk and a pending hang-up
reason. -/
def oneChunkState : RouterState :=
  { stream_sid := some "MZ1", last_ai_item_id := some "item-1",
    mark_queue := [100], mark_queue_elapsed_time := 0,
    inter_mark_start_time := some 900,
    hang_up_reason := some ⟨PhoneCallEndReason.end_of_call_bot, none⟩ }

/-- Example router state in which the bot has already set a termination
cause. -/
def botReasonState : RouterState :=
  { stream_sid := none, last_ai_item_id := none,
    mark_queue := [], mark_queue_elapsed_time := 0,
    inter_mark_start_time := none,
    hang_up_reason := some ⟨PhoneCallEndReason.end_of_call_bot, none⟩ }

/-- Example cleanup state for a completed inbound telephony call whose bot
requested the hang-up. -/
def inboundCleanupState : CleanupState :=
  { hang_up_reason := some ⟨PhoneCallEndReason.end_of_call_bot, none⟩,
    cleanup_started := false, phone_call_id := "pc-1",
    audio_total_buffer_ms := 5000, call_type := PhoneCallType.inbound,
    call_sid := "CA1" }

/-- Example cleanup state for an outbound call about to terminate with
`user_hangup`. -/
def outboundCleanupState : CleanupState :=
  { hang_up_reason := some ⟨PhoneCallEndReason.user_hangup, none⟩,
    cleanup_started := false, phone_call_id := "pc-2",
    audio_total_buffer_ms := 1000, call_type := PhoneCallType.outbound,
    call_sid := "CA2" }

/-- Example AI session state: user not yet speaking, two buffered pre-speech
frames with cumulative input times 300 and 340 ms. -/
def preSpeechState : AiState :=
  { user_speaking := false, audio_input_buffer_ms := 340,
    audio_total_buffer_ms := 0,
    audio_input_buffer := [("f1", 20, 300), ("f2", 40, 340)],
    speaker_segments := [], listener := [],
    start_speaking_buffer_ms := none,
    start_speaking_buffer_start_time := none }

/-- Example AI session state whose only speaker segment is an Assistant
segment with item id `"i1"`. -/
def assistantSegState : AiState :=
  { user_speaking := false, audio_input_buffer_ms := 0,
    audio_total_buffer_ms := 0, audio_input_buffer := [],
    speaker_segments := [⟨0, Speaker.assistant, "", "i1"⟩],
    listener := [], start_speaking_buffer_ms := none,
    start_speaking_buffer_start_time := none }

/-! ## Theorems -/

/-- C1: on barge-in (`speech_started` with a non-empty mark queue), the
truncation offset sent via `send_truncate(last_ai_item_id, heard_ms)` equals
`mark_queue_elapsed_time` plus, when `inter_mark_start_time` is set,
`min(now_ms - inter_mark_start_time, first pending chunk duration)`; a
`clear` event is sent and the mark queue is left empty. -/
theorem C1_barge_in_truncation (now d t0 : Int) (rest : List Int)
    (item : String) (s : RouterState)
    (hq : s.mark_queue = d :: rest)
    (hid : s.last_ai_item_id = some item)
    (ht : s.inter_mark_start_time = some t0) :
    (handleSpeechStarted now s).truncate =
      some ⟨item, s.mark_queue_elapsed_time + min (now - t0) d⟩ ∧
    (handleSpeechStarted now s).clear_sent = true ∧
    (handleSpeechStarted now s).state.mark_queue = [] := by
  simp [handleSpeechStarted, truncateAudioMessage, hq, hid, ht]

/-- C1 witness: state S2 of the spec — elapsed 200 ms, pending chunks
`[200, 200]`, 50 ms of wallclock since the last mark acknowledgment — yields
`audio_end_ms = 200 + min(50, 200) = 250`, a `clear`, and an empty queue. -/
theorem C1_barge_in_truncation_witness :
    (handleSpeechStarted 1050 s2State).truncate = some ⟨"item-1", 250⟩ ∧
    (handleSpeechStarted 1050 s2State).clear_sent = true ∧
    (handleSpeechStarted 1050 s2State).state.mark_queue = [] := by
  have h := C1_barge_in_truncation 1050 200 1000 [200] "item-1" s2State
    rfl rfl rfl
  refine ⟨?_, h.2.1, h.2.2⟩
  rw [h.1]
  rfl

/-- C9: a `mark` event with an empty mark queue is a no-op — the state is
returned unchanged and the uplink loop is not exited even when a hang-up
reason is set — and the hang-up drain exit fires only on the mark that pops
the final queued chunk while a hang-up reason is set. -/
theorem C9_mark_event_frame (now : Int) (s : RouterState) :
    (s.mark_queue = [] → handleMarkEvent now s = ⟨s, false⟩) ∧
    ((handleMarkEvent now s).loop_break = true →
      s.mark_queue.length = 1 ∧ s.hang_up_reason.isSome = true) := by
  constructor
  · intro h
    simp [handleMarkEvent, h]
  · intro h
    cases hq : s.mark_queue with
    | nil =>
      rw [handleMarkEvent, hq] at h
      exact absurd h (by simp)
    | cons time_ms rest =>
      rw [handleMarkEvent, hq] at h
      simp only [Bool.and_eq_true, beq_iff_eq, List.length_eq_zero] at h
      rcases h with ⟨h1, h2⟩
      subst h2
      exact ⟨by simp [hq], h1⟩

/-- C9 witness: with an empty queue and a hang-up reason set, the mark event
changes nothing and does not exit; with a single pending chunk and a hang-up
reason set, the exit fires and the popped queue had length one. -/
theorem C9_mark_event_frame_witness :
    handleMarkEvent 2000 emptyQueueState = ⟨emptyQueueState, false⟩ ∧
    (oneChunkState.mark_queue.length = 1 ∧
      oneChunkState.hang_up_reason.isSome = true) := by
  exact ⟨(C9_mark_event_frame 2000 emptyQueueState).1 rfl,
    (C9_mark_event_frame 2000 oneChunkState).2 rfl⟩

/-- C10: a `transfer_call` whose label matches no configured entry only logs
a warning: the router state (in particular `hang_up_reason`) is unchanged,
and no transfer, hang-up, or tool-result effect is produced, so the call
continues. -/
theorem C10_transfer_unknown_label (entries : List TransferEntry)
    (lbl : String) (s : RouterState)
    (h : findTransferNumber entries lbl = none) :
    (transferCallStep entries lbl s).1 = s ∧
    (transferCallStep entries lbl s).2 =
      [RouterEffect.logWarning
        ("Transfer call number not found: " ++ lbl
          ++ ", call will not be transferred")] := by
  simp [transferCallStep, h]

/-- C10 witness: a configuration with only a `"sales"` entry and the unknown
label `"support"`. -/
theorem C10_transfer_unknown_label_witness :
    (transferCallStep [⟨"sales", "+15550001111"⟩] "support"
      botReasonState).1 = botReasonState ∧
    (transferCallStep [⟨"sales", "+15550001111"⟩] "support"
      botReasonState).2 =
      [RouterEffect.logWarning
        ("Transfer call number not found: support"
          ++ ", call will not be transferred")] := by
  exact C10_transfer_unknown_label [⟨"sales", "+15550001111"⟩] "support"
    botReasonState rfl

/-- C2 counterexample: with `end_of_call_bot` already stored, the
`ConnectionClosedOK` handler of `CallRouter.receive_from_human_call`
overwrites the cause with `user_hangup`, so the cause passed to the
termination routine is not the first cause set. -/
theorem C2_counterexample :
    botReasonState.hang_up_reason =
      some ⟨PhoneCallEndReason.end_of_call_bot, none⟩ ∧
    (applyTrigger TerminationTrigger.humanTransportClose
      botReasonState).hang_up_reason =
      some ⟨PhoneCallEndReason.user_hangup, none⟩ ∧
    cleanupReason (applyTrigger TerminationTrigger.humanTransportClose
      botReasonState) ≠ PhoneCallEndReason.end_of_call_bot := by
  refine ⟨rfl, rfl, by decide⟩

/-- C2 amended: `hang_up_reason` is last-writer-wins — every termination
trigger assigns unconditionally, so after any sequence of triggers the
stored cause, and the cause the cleanup passes to `AiCaller.close`, is that
of the most recent trigger. -/
theorem C2_last_writer_wins (s : RouterState)
    (ts : List TerminationTrigger) (t : TerminationTrigger) :
    (applyTrigger t s).hang_up_reason = some (triggerReason t) ∧
    cleanupReason (applyTriggers (ts ++ [t]) s) = (triggerReason t).reason :=
  by
  constructor
  · rfl
  · simp [applyTriggers, List.foldl_append, applyTrigger, cleanupReason]

/-- C3 (code bug): `AiCaller.close` itself is guarded — a second call
returns the cached `(call_id, total_ms)` with no effects — but
`CallRouter._cleanup`, which both per-call tasks invoke in their `finally`
blocks, has no such guard: for a completed inbound call its second
invocation returns the same pair yet performs a second telephony hang-up
and inserts a second phone-call-event row. -/
theorem C3_cleanup_not_idempotent :
    (callRouterCleanup true true inboundCleanupState).2.2 =
      some ("pc-1", 5000) ∧
    (aiCallerCloseRun true true PhoneCallEndReason.end_of_call_bot
      (callRouterCleanup true true inboundCleanupState).1) =
      ((callRouterCleanup true true inboundCleanupState).1, [],
        some ("pc-1", 5000)) ∧
    (callRouterCleanup true true
      (callRouterCleanup true true inboundCleanupState).1).2.2 =
      some ("pc-1", 5000) ∧
    (callRouterCleanup true true
      (callRouterCleanup true true inboundCleanupState).1).2.1 =
      [CleanupEffect.telephonyHangUp "CA1",
       CleanupEffect.insertPhoneCallEvent "pc-1" 5] := by
  refine ⟨rfl, rfl, rfl, rfl⟩

/-- C4 counterexample: when the zip-and-upload step fails, `AiCaller.close`
stops after flushing the log tasks — the call record is never updated and
the failure propagates — contradicting the claim that the end reason is
recorded regardless. -/
theorem C4_counterexample :
    (aiCallerCloseRun false true PhoneCallEndReason.user_hangup
      outboundCleanupState).2.1 =
      [CleanupEffect.closeModelConnection, CleanupEffect.pushCallEnd,
       CleanupEffect.flushLogTasks] ∧
    (aiCallerCloseRun false true PhoneCallEndReason.user_hangup
      outboundCleanupState).2.2 = none ∧
    CleanupEffect.updatePhoneCall (s3Filepath "pc-2")
        PhoneCallEndReason.user_hangup ∉
      (aiCallerCloseRun false true PhoneCallEndReason.user_hangup
        outboundCleanupState).2.1 := by
  refine ⟨rfl, rfl, by decide⟩

/-- C4 amended: a failure in the zip-and-upload step propagates and skips
the call-record update, while a failure deleting the local log occurs after
the update, so only in the delete-failure case is the end reason still
recorded; neither failure is caught inside `close`. -/
theorem C4_failure_ordering (st : CleanupState) (r : PhoneCallEndReason)
    (h : st.cleanup_started = false) :
    (CleanupEffect.updatePhoneCall (s3Filepath st.phone_call_id) r ∉
        (aiCallerCloseRun false true r st).2.1 ∧
      (aiCallerCloseRun false true r st).2.2 = none) ∧
    (∀ deleteOk : Bool,
      CleanupEffect.updatePhoneCall (s3Filepath st.phone_call_id) r ∈
        (aiCallerCloseRun true deleteOk r st).2.1) ∧
    (aiCallerCloseRun true false r st).2.2 = none := by
  refine ⟨⟨?_, ?_⟩, ?_, ?_⟩
  · simp [aiCallerCloseRun, h]
  · simp [aiCallerCloseRun, h]
  · intro deleteOk
    cases deleteOk <;> simp [aiCallerCloseRun, h]
  · simp [aiCallerCloseRun, h]

/-- C4 witness: the amended ordering facts at a concrete inbound cleanup
state with reason `unknown`. -/
theorem C4_failure_ordering_witness :
    (CleanupEffect.updatePhoneCall (s3Filepath "pc-1")
        PhoneCallEndReason.unknown ∉
      (aiCallerCloseRun false true PhoneCallEndReason.unknown
        inboundCleanupState).2.1) ∧
    (CleanupEffect.updatePhoneCall (s3Filepath "pc-1")
        PhoneCallEndReason.unknown ∈
      (aiCallerCloseRun true false PhoneCallEndReason.unknown
        inboundCleanupState).2.1) ∧
    (aiCallerCloseRun true false PhoneCallEndReason.unknown
      inboundCleanupState).2.2 = none := by
  have h := C4_failure_ordering inboundCleanupState
    PhoneCallEndReason.unknown rfl
  exact ⟨h.1.1, h.2.1 false, h.2.2⟩

/-- The flush loop equals a filter by the `cumulative_input_ms ≥
audio_start_ms` threshold: qualifying durations are summed and qualifying
frames forwarded, in order. -/
theorem flushInputBuffer_spec (start : Int)
    (entries : List (String × Int × Int)) :
    ∀ (total : Int) (out : List AiMessage),
    flushInputBuffer start entries total out =
      (total +
        ((entries.filter (fun e => start ≤ e.2.2)).map (fun e => e.2.1)).sum,
       out ++ (entries.filter (fun e => start ≤ e.2.2)).map
          (fun e => AiMessage.audio e.1)) := by
  induction entries with
  | nil =>
    intro total out
    simp [flushInputBuffer]
  | cons e rest ih =>
    intro total out
    obtain ⟨audio, ims, ms⟩ := e
    by_cases hc : start ≤ ms
    · simp [flushInputBuffer, hc, ih, addData, add_assoc, ge_iff_le]
    · simp [flushInputBuffer, hc, ih, ge_iff_le]

/-- C5: pre-speech `input_buffer` entries are flushed into `total_ms` and
pushed to the listener only by the `speech_started` handler, and only the
entries with `cumulative_input_ms ≥ audio_start_ms`; the rest are discarded
with the buffer.  Every other model event leaves the buffer untouched, and
human audio received while the user is not speaking is buffered without
touching `total_ms` or the listener. -/
theorem C5_pre_speech_buffer (audioMs : String → Int) (now : Int)
    (item audio : String) (start : Int) (s : AiState) :
    ((messageHandler audioMs now (AiEvent.speechStarted item start)
        s).audio_total_buffer_ms =
      s.audio_total_buffer_ms +
        ((s.audio_input_buffer.filter (fun e => start ≤ e.2.2)).map
          (fun e => e.2.1)).sum ∧
      (messageHandler audioMs now (AiEvent.speechStarted item start)
        s).listener =
        addData s.listener
          (AiMessage.speaker
            (messageHandler audioMs now (AiEvent.speechStarted item start)
              s).speaker_segments) ++
          (s.audio_input_buffer.filter (fun e => start ≤ e.2.2)).map
            (fun e => AiMessage.audio e.1) ∧
      (messageHandler audioMs now (AiEvent.speechStarted item start)
        s).audio_input_buffer = []) ∧
    (∀ e : AiEvent, isSpeechStarted e = false →
      (messageHandler audioMs now e s).audio_input_buffer =
        s.audio_input_buffer) ∧
    (s.user_speaking = false →
      (receiveHumanAudio audioMs now audio s).audio_total_buffer_ms =
        s.audio_total_buffer_ms ∧
      (receiveHumanAudio audioMs now audio s).listener = s.listener ∧
      (receiveHumanAudio audioMs now audio s).audio_input_buffer =
        s.audio_input_buffer ++
          [(audio, audioMs audio,
            s.audio_input_buffer_ms + audioMs audio)]) := by
  refine ⟨?_, ?_, ?_⟩
  · simp [messageHandler, updateSpeakerSegments, flushInputBuffer_spec,
      addData]
  · intro e he
    cases e <;>
      simp_all [messageHandler, updateSpeakerSegments, isSpeechStarted,
        addData] <;>
      split <;> rfl
  · intro hus
    rcases hb : s.start_speaking_buffer_ms with _ | buf <;>
      rcases ht : s.start_speaking_buffer_start_time with _ | t0 <;>
      simp [receiveHumanAudio, hb, ht, hus] <;>
      split <;> simp [hus]

/-- C5 witness: with frames of cumulative input times 300 and 340 ms
buffered and `audio_start_ms = 340`, only the second frame is flushed
(total 40 ms), the buffer empties, and a frame received while the user is
not speaking is buffered without changing the total. -/
theorem C5_pre_speech_buffer_witness :
    (messageHandler (fun _ => 20) 0 (AiEvent.speechStarted "it" 340)
      preSpeechState).audio_total_buffer_ms = 40 ∧
    (messageHandler (fun _ => 20) 0 (AiEvent.speechStarted "it" 340)
      preSpeechState).audio_input_buffer = [] ∧
    (receiveHumanAudio (fun _ => 20) 0 "f3"
      preSpeechState).audio_total_buffer_ms = 0 ∧
    (receiveHumanAudio (fun _ => 20) 0 "f3"
      preSpeechState).audio_input_buffer =
      preSpeechState.audio_input_buffer ++ [("f3", 20, 360)] := by
  have h := C5_pre_speech_buffer (fun _ => 20) 0 "it" "f3" 340 preSpeechState
  refine ⟨?_, h.1.2.2, ?_, ?_⟩
  · rw [h.1.1]
    rfl
  · rw [(h.2.2 rfl).1]
    rfl
  · rw [(h.2.2 rfl).2.2]
    rfl

/-- `updateFirstMatch` rewrites the transcript of the first `item_id` match,
whatever its speaker, leaving everything else in place. -/
theorem updateFirstMatch_append (pre rest : List SpeakerSegment)
    (s0 seg : SpeakerSegment)
    (hpre : ∀ x ∈ pre, x.item_id ≠ seg.item_id)
    (hs : s0.item_id = seg.item_id) :
    updateFirstMatch (pre ++ s0 :: rest) seg =
      pre ++ { s0 with transcript := seg.transcript } :: rest := by
  induction pre with
  | nil =>
    simp [updateFirstMatch, hs]
  | cons p ps ih =>
    simp only [List.cons_append, updateFirstMatch]
    rw [if_neg (hpre p (by simp))]
    simp only [List.append_eq]
    rw [ih (fun x hx => hpre x (by simp [hx]))]

/-- In `process_audio_data`, a transcription-completed scan over segments
none of whose `item_id` matches are User segments changes nothing. -/
theorem processTranscriptionCompleted_skips_nonuser (item t : String) :
    ∀ segs : List SpeakerSegment,
    (∀ x ∈ segs, x.item_id = item → x.speaker ≠ Speaker.user) →
    (processTranscriptionCompleted item t segs).1 = segs := by
  intro segs
  induction segs with
  | nil =>
    intro _
    rfl
  | cons s rest ih =>
    intro hall
    by_cases hm : s.item_id = item
    · have hns : s.speaker ≠ Speaker.user := hall s (by simp) hm
      simp [processTranscriptionCompleted, hm, hns,
        ih (fun x hx h => hall x (by simp [hx]) h)]
    · simp [processTranscriptionCompleted, hm,
        ih (fun x hx h => hall x (by simp [hx]) h)]

/-- In `process_audio_data`, if some segment matches the `item_id` but no
matching segment is a User segment, an anomaly is logged. -/
theorem processTranscriptionCompleted_anomaly (item t : String) :
    ∀ segs : List SpeakerSegment,
    (∀ x ∈ segs, x.item_id = item → x.speaker ≠ Speaker.user) →
    (∃ x ∈ segs, x.item_id = item) →
    (processTranscriptionCompleted item t segs).2 = true := by
  intro segs
  induction segs with
  | nil =>
    rintro _ ⟨x, hx, _⟩
    cases hx
  | cons s rest ih =>
    rintro hall ⟨x, hx, hxi⟩
    by_cases hm : s.item_id = item
    · have hns : s.speaker ≠ Speaker.user := hall s (by simp) hm
      simp [processTranscriptionCompleted, hm, hns]
    · rcases List.mem_cons.mp hx with rfl | hx2
      · exact absurd hxi hm
      · simp only [processTranscriptionCompleted, if_neg hm]
        exact ih (fun y hy h => hall y (by simp [hy]) h) ⟨x, hx2, hxi⟩

/-- C6 counterexample: the live handler's
`conversation.item.input_audio_transcription.completed` branch sets the
transcript of an Assistant segment whose `item_id` matches — there is no
speaker check in `AiCaller._update_speaker_segments`, so the transcript is
not left unchanged and no anomaly is recorded. -/
theorem C6_counterexample :
    (messageHandler (fun _ => 0) 0
      (AiEvent.transcriptionCompleted "i1" "hello")
      assistantSegState).speaker_segments =
      [⟨0, Speaker.assistant, "hello", "i1"⟩] := by
  rfl

/-- C6 amended: the live handler (`_update_speaker_segments`) sets the
transcript of the first segment matching the `item_id` regardless of its
speaker; only the offline log reconstruction (`process_audio_data`)
performs the speaker check, leaving every non-User match unchanged and
logging an anomaly. -/
theorem C6_transcription_update (item t : String)
    (pre rest segs : List SpeakerSegment) (s0 : SpeakerSegment)
    (hpre : ∀ x ∈ pre, x.item_id ≠ item) (hs : s0.item_id = item)
    (hall : ∀ x ∈ segs, x.item_id = item → x.speaker ≠ Speaker.user)
    (hex : ∃ x ∈ segs, x.item_id = item) :
    updateFirstMatch (pre ++ s0 :: rest) ⟨0, Speaker.user, t, item⟩ =
      pre ++ { s0 with transcript := t } :: rest ∧
    processTranscriptionCompleted item t segs = (segs, true) := by
  constructor
  · exact updateFirstMatch_append pre rest s0 ⟨0, Speaker.user, t, item⟩
      hpre hs
  · have h1 := processTranscriptionCompleted_skips_nonuser item t segs hall
    have h2 := processTranscriptionCompleted_anomaly item t segs hall hex
    exact Prod.ext h1 h2

/-- C6 witness: a User segment for item `"a"` followed by an Assistant
segment for item `"i1"` — the live update rewrites the Assistant segment's
transcript, while the offline scan leaves the same list unchanged and flags
the anomaly. -/
theorem C6_transcription_update_witness :
    updateFirstMatch
        [⟨0, Speaker.user, "", "a"⟩, ⟨0, Speaker.assistant, "", "i1"⟩]
        ⟨0, Speaker.user, "hello", "i1"⟩ =
      [⟨0, Speaker.user, "", "a"⟩, ⟨0, Speaker.assistant, "hello", "i1"⟩] ∧
    processTranscriptionCompleted "i1" "hello"
        [⟨0, Speaker.user, "", "a"⟩, ⟨0, Speaker.assistant, "", "i1"⟩] =
      ([⟨0, Speaker.user, "", "a"⟩, ⟨0, Speaker.assistant, "", "i1"⟩],
        true) := by
  exact C6_transcription_update "i1" "hello" [⟨0, Speaker.user, "", "a"⟩]
    [] [⟨0, Speaker.user, "", "a"⟩, ⟨0, Speaker.assistant, "", "i1"⟩]
    ⟨0, Speaker.assistant, "", "i1"⟩
    (by decide) rfl (by decide) (by decide)

/-- `put_nowait` pushes accumulate: folding `add_data` appends the pushed
messages, in order, after the existing queue contents. -/
theorem foldl_addData (msgs : List AiMessage) :
    ∀ q : List AiMessage, msgs.foldl addData q = q ++ msgs := by
  induction msgs with
  | nil =>
    intro q
    simp
  | cons m rest ih =>
    intro q
    simp [List.foldl_cons, addData, ih]

/-- C7 counterexample: the listener queue is unbounded — no capacity bounds
the queue length over all push sequences, since `asyncio.Queue()` is
created without a `maxsize` and `add_data` never drops. -/
theorem C7_counterexample :
    ¬ ∃ cap : ℕ, ∀ msgs : List AiMessage,
      (enqueueAll msgs).length ≤ cap := by
  rintro ⟨cap, h⟩
  have h2 := h (List.replicate (cap + 1) (AiMessage.audio "a"))
  rw [enqueueAll, foldl_addData] at h2
  simp at h2

/-- C7 amended: the listener queue is unbounded and never drops anything —
every pushed message is retained in FIFO order — so a listener that keeps
reading observes every message pushed before the `call_end` sentinel and
then the sentinel itself, after which its stream closes. -/
theorem C7_unbounded_no_drop (pre : List AiMessage)
    (h : ∀ m ∈ pre, m ≠ AiMessage.callEnd) :
    (∀ msgs : List AiMessage, enqueueAll msgs = msgs) ∧
    drainQueue (enqueueAll (endCall pre)) =
      pre ++ [AiMessage.callEnd] := by
  have hall : ∀ msgs : List AiMessage, enqueueAll msgs = msgs := by
    intro msgs
    rw [enqueueAll, foldl_addData]
    simp
  refine ⟨hall, ?_⟩
  rw [hall, endCall, addData]
  induction pre with
  | nil => rfl
  | cons m rest ih =>
    have hm := h m (by simp)
    have hrest := ih (fun x hx => h x (by simp [hx]))
    cases m with
    | callEnd => exact absurd rfl hm
    | audio d => simp [drainQueue, hrest]
    | speaker segs => simp [drainQueue, hrest]

/-- C7 witness: a speaker snapshot and an audio frame pushed before
`end_call` are both observed by the listener, followed by the sentinel. -/
theorem C7_unbounded_no_drop_witness :
    enqueueAll [AiMessage.audio "x", AiMessage.callEnd] =
      [AiMessage.audio "x", AiMessage.callEnd] ∧
    drainQueue (enqueueAll
        (endCall [AiMessage.speaker [], AiMessage.audio "x"])) =
      [AiMessage.speaker [], AiMessage.audio "x", AiMessage.callEnd] := by
  have h := C7_unbounded_no_drop [AiMessage.speaker [], AiMessage.audio "x"]
    (by decide)
  exact ⟨h.1 _, h.2⟩

/-- The greedy grouping partitions its input: the concatenation of the
produced groups is the pending documents appended to the current group. -/
theorem groupDocsAux3_join (maxT : Int) :
    ∀ (docs cur : List Doc3) (curTok : Int),
    (groupDocsAux3 maxT docs cur curTok).flatten = cur ++ docs := by
  intro docs
  induction docs with
  | nil =>
    intro cur curTok
    by_cases hc : cur.isEmpty
    · rw [List.isEmpty_iff] at hc
      simp [groupDocsAux3, hc]
    · simp [groupDocsAux3, hc]
  | cons d rest ih =>
    intro cur curTok
    by_cases hc : curTok + d.2.2 > maxT ∧ cur ≠ []
    · simp [groupDocsAux3, hc, ih]
    · simp [groupDocsAux3, hc, ih]

/-- When every pending document fits in the budget and the current group is
within budget, every group the greedy loop emits is within budget. -/
theorem groupDocsAux3_bound (maxT : Int) :
    ∀ (docs cur : List Doc3) (curTok : Int),
    (∀ d ∈ docs, d.2.2 ≤ maxT) →
    curTok = tokenSum cur →
    tokenSum cur ≤ maxT →
    ∀ g ∈ groupDocsAux3 maxT docs cur curTok, tokenSum g ≤ maxT := by
  intro docs
  induction docs with
  | nil =>
    intro cur curTok hall hct hle g hg
    by_cases hc : cur.isEmpty
    · simp [groupDocsAux3, hc] at hg
    · simp [groupDocsAux3, hc] at hg
      exact hg ▸ hle
  | cons d rest ih =>
    intro cur curTok hall hct hle g hg
    rw [groupDocsAux3] at hg
    by_cases hc : curTok + d.2.2 > maxT ∧ cur ≠ []
    · rw [if_pos hc] at hg
      rcases List.mem_cons.mp hg with rfl | hg2
      · exact hle
      · refine ih [d] d.2.2 (fun x hx => hall x (by simp [hx])) ?_ ?_ g hg2
        · simp [tokenSum]
        · simpa [tokenSum] using hall d (by simp)
    · rw [if_neg hc] at hg
      push_neg at hc
      have hsum : tokenSum (cur ++ [d]) = curTok + d.2.2 := by
        simp [tokenSum, hct, add_comm]
      have hbound : tokenSum (cur ++ [d]) ≤ maxT := by
        rw [hsum]
        by_cases hover : curTok + d.2.2 > maxT
        · have hnil := hc hover
          subst hnil
          have : curTok = 0 := by simpa [tokenSum] using hct
          rw [this, zero_add]
          exact hall d (by simp)
        · exact le_of_not_lt hover
      exact ih (cur ++ [d]) (curTok + d.2.2)
        (fun x hx => hall x (by simp [hx])) hsum.symm hbound g hg

/-- The grouping shipped in the source (`_group_documents_by_token_count`,
which keeps `(name, text)` pairs) is the pointwise projection of the
token-keeping grouping. -/
theorem groupDocsAux_proj (maxT : Int) :
    ∀ (docs curT : List Doc3) (curTok : Int),
    groupDocsAux maxT docs (curT.map docPair) curTok =
      (groupDocsAux3 maxT docs curT curTok).map (List.map docPair) := by
  intro docs
  induction docs with
  | nil =>
    intro curT curTok
    cases curT with
    | nil => rfl
    | cons c cs => simp [groupDocsAux, groupDocsAux3]
  | cons d rest ih =>
    intro curT curTok
    obtain ⟨name, text, tok⟩ := d
    cases curT with
    | nil =>
      rw [groupDocsAux, groupDocsAux3]
      rw [if_neg (by simp), if_neg (by simp)]
      exact ih [(name, text, tok)] (curTok + tok)
    | cons c cs =>
      by_cases hover : curTok + tok > maxT
      · rw [groupDocsAux, groupDocsAux3]
        rw [if_pos ⟨hover, by simp⟩, if_pos ⟨hover, by simp⟩]
        rw [List.map_cons]
        exact congrArg _ (ih [(name, text, tok)] tok)
      · rw [groupDocsAux, groupDocsAux3]
        rw [if_neg (by simp [hover]), if_neg (by simp [hover])]
        have : (c :: cs).map docPair ++ [(name, text)] =
            ((c :: cs) ++ [(name, text, tok)]).map docPair := by
          simp [docPair]
        rw [this]
        exact ih ((c :: cs) ++ [(name, text, tok)]) (curTok + tok)

/-- C8 counterexample: a knowledge base holding a single 40000-token
document yields the single group containing it, whose token total exceeds
`MAX_TOKEN_AMOUNT = 30000` — the greedy loop never splits an oversized
document, so not every group is within the budget. -/
theorem C8_counterexample :
    groupDocs3 (sortDocumentsByTokenCount [("d", "t", 40000)])
      MAX_TOKEN_AMOUNT = [[("d", "t", 40000)]] ∧
    queryDocumentsGroups [("d", "t", 40000)] = [[("d", "t")]] ∧
    ¬ tokenSum [("d", "t", 40000)] ≤ MAX_TOKEN_AMOUNT := by
  refine ⟨?_, ?_, by decide⟩
  · simp [groupDocs3, sortDocumentsByTokenCount, List.mergeSort,
      groupDocsAux3, MAX_TOKEN_AMOUNT]
  · simp [queryDocumentsGroups, groupDocumentsByTokenCount,
      sortDocumentsByTokenCount, List.mergeSort, groupDocsAux,
      MAX_TOKEN_AMOUNT]

/-- C8 amended: `query_documents` sorts the documents ascending by token
count (a stable sort) and packs them greedily; provided every individual
document is within the 30000-token budget, every group's total is within
the budget, the groups concatenate back to the sorted document list, the
shipped pair-level grouping is the projection of this partition, and the
returned value is the single string obtained by consolidating one
knowledge-base lookup per group, the lookups taken in group order. -/
theorem C8_grouping (docs : List Doc3)
    (getDocuments : List String → List Doc3)
    (lookup : String → List (String × String) → String)
    (consolidate : String → List String → String)
    (query : String) (kbs : List String)
    (hall : ∀ d ∈ docs, d.2.2 ≤ MAX_TOKEN_AMOUNT)
    (hkb : kbs ≠ []) (hdocs : getDocuments kbs = docs) :
    (∀ g ∈ groupDocs3 (sortDocumentsByTokenCount docs) MAX_TOKEN_AMOUNT,
      tokenSum g ≤ MAX_TOKEN_AMOUNT) ∧
    (groupDocs3 (sortDocumentsByTokenCount docs) MAX_TOKEN_AMOUNT).flatten =
      sortDocumentsByTokenCount docs ∧
    queryDocumentsGroups docs =
      (groupDocs3 (sortDocumentsByTokenCount docs)
        MAX_TOKEN_AMOUNT).map (List.map docPair) ∧
    List.Pairwise (fun a b : Doc3 => a.2.2 ≤ b.2.2)
      (sortDocumentsByTokenCount docs) ∧
    queryDocuments getDocuments lookup consolidate query kbs =
      consolidate query
        ((queryDocumentsGroups docs).map (lookup query)) := by
  have hmem : ∀ d ∈ sortDocumentsByTokenCount docs,
      d.2.2 ≤ MAX_TOKEN_AMOUNT := by
    intro d hd
    exact hall d ((List.mergeSort_perm docs _).mem_iff.mp hd)
  refine ⟨?_, ?_, ?_, ?_, ?_⟩
  · exact groupDocsAux3_bound MAX_TOKEN_AMOUNT
      (sortDocumentsByTokenCount docs) [] 0 hmem (by simp [tokenSum])
      (by simp [tokenSum, MAX_TOKEN_AMOUNT])
  · exact groupDocsAux3_join MAX_TOKEN_AMOUNT
      (sortDocumentsByTokenCount docs) [] 0
  · have h := groupDocsAux_proj MAX_TOKEN_AMOUNT
      (sortDocumentsByTokenCount docs) [] 0
    simpa [queryDocumentsGroups, groupDocumentsByTokenCount, groupDocs3]
      using h
  · have h := @List.sorted_mergeSort Doc3
      (fun a b : Doc3 => decide (a.2.2 ≤ b.2.2))
      (fun a b c hab hbc => by
        simp only [decide_eq_true_eq] at hab hbc ⊢
        exact le_trans hab hbc)
      (fun a b => by
        simp only [Bool.or_eq_true, decide_eq_true_eq]
        exact le_total a.2.2 b.2.2)
      docs
    exact h.imp (fun hab => by simpa using hab)
  · rw [queryDocuments.eq_def]
    rw [if_neg (by simpa using hkb)]
    rw [hdocs]
    rfl

/-- C8 witness: the spec's S5 scenario — token counts 10000, 12000, 15000
(given unsorted) are sorted ascending and packed into exactly the groups
`[10k, 12k]` and `[15k]`, and `query_documents` returns the consolidation
of one lookup per group, in group order. -/
theorem C8_grouping_witness :
    (∀ g ∈ groupDocs3 (sortDocumentsByTokenCount
        [("c", "tc", 15000), ("a", "ta", 10000), ("b", "tb", 12000)])
        MAX_TOKEN_AMOUNT, tokenSum g ≤ MAX_TOKEN_AMOUNT) ∧
    queryDocumentsGroups
        [("c", "tc", 15000), ("a", "ta", 10000), ("b", "tb", 12000)] =
      [[("a", "ta"), ("b", "tb")], [("c", "tc")]] ∧
    queryDocuments
        (fun _ =>
          [("c", "tc", 15000), ("a", "ta", 10000), ("b", "tb", 12000)])
        (fun _ g => String.intercalate "+" (g.map Prod.fst))
        (fun _ answers => String.intercalate "|" answers)
        "q" ["kb1"] = "a+b|c" := by
  have h := C8_grouping
    [("c", "tc", 15000), ("a", "ta", 10000), ("b", "tb", 12000)]
    (fun _ => [("c", "tc", 15000), ("a", "ta", 10000), ("b", "tb", 12000)])
    (fun _ g => String.intercalate "+" (g.map Prod.fst))
    (fun _ answers => String.intercalate "|" answers)
    "q" ["kb1"]
    (by decide) (by decide) rfl
  have hgroups : queryDocumentsGroups
      [("c", "tc", 15000), ("a", "ta", 10000), ("b", "tb", 12000)] =
      [[("a", "ta"), ("b", "tb")], [("c", "tc")]] := by
    simp [queryDocumentsGroups, groupDocumentsByTokenCount,
      sortDocumentsByTokenCount, List.mergeSort, List.merge, groupDocsAux,
      MAX_TOKEN_AMOUNT]
  refine ⟨h.1, hgroups, ?_⟩
  rw [h.2.2.2.2, hgroups]
  rfl

end Helixion
